import Mathlib

/-!
Verification of the `bots` repository (two Python scripts: `login_bot.py` and
`auto_refresh.py`) against its natural-language specification.

The credential parser of `login_bot.py` is embedded as pure functions over
`List Char` (a line of text).  The effectful browser-driving procedures are
embedded as fuel-bounded interpreters over explicit lists of steps: every
fallible effect (navigation, element wait, sleep, field interaction, driver
creation) consults an environment `env : Nat → Option Exc` assigning to the
n-th executed fallible effect either `none` (success) or `some e` (the
exception it raises).  Log prints never fail.  A run produces the list of
events that happened (its trace) together with a termination signal.
-/

/-- Exceptions that can arise while driving the browser or parsing input,
mirroring the exception kinds relevant to `login_bot.py` / `auto_refresh.py`. -/
inductive Exc where
  | timeoutError
  | keyboardInterrupt
  | webDriverError
  | valueError
  | otherError
deriving DecidableEq

/-- Termination signal of a (fuel-bounded) run: normal completion, an
uncaught exception, or fuel exhaustion (the run is still inside an
infinite loop). -/
inductive Sig where
  | ok
  | exc (e : Exc)
  | fuelOut
deriving DecidableEq

/-- One step of straight-line code: a fallible effect or an infallible
log print. -/
inductive Step (α : Type) where
  | eff (ev : α)
  | note (ev : α)
deriving DecidableEq

/-- The event recorded in the trace for a step. -/
def stepEv {α : Type} : Step α → α
  | .eff e => e
  | .note e => e

/-- Number of fallible effects in a step list. -/
def effCount {α : Type} (s : List (Step α)) : Nat :=
  s.countP (fun st => match st with | .eff _ => true | .note _ => false)

/-- Run a straight-line step list.  `k` is the index of the next fallible
effect (the position in `env`).  Returns the trace, the next effect index,
and the signal. -/
def runSeq {α : Type} (env : Nat → Option Exc) :
    List (Step α) → Nat → List α × Nat × Sig
  | [], k => ([], k, .ok)
  | .note ev :: rest, k =>
    let r := runSeq env rest k
    (ev :: r.1, r.2)
  | .eff ev :: rest, k =>
    match env k with
    | some e => ([ev], k + 1, .exc e)
    | none =>
      let r := runSeq env rest (k + 1)
      (ev :: r.1, r.2)

/-- Run a `while True:` loop whose body is the step list `iter`, for at
most `fuel` iterations. -/
def runLoop {α : Type} (env : Nat → Option Exc) (iter : List (Step α)) :
    Nat → Nat → List α × Nat × Sig
  | 0, k => ([], k, .fuelOut)
  | fuel + 1, k =>
    let r := runSeq env iter k
    match r.2.2 with
    | .ok =>
      let r2 := runLoop env iter fuel r.2.1
      (r.1 ++ r2.1, r2.2)
    | s => (r.1, r.2.1, s)

/-- The environment that never raises. -/
def envNone : Nat → Option Exc := fun _ => none

/-- The environment whose `n`-th fallible effect raises `e` and whose other
effects succeed. -/
def envFailAt (n : Nat) (e : Exc) : Nat → Option Exc :=
  fun k => if k = n then some e else none

namespace LoginBot

/-- Python `str.strip()` (default whitespace) on one line of text. -/
def pyStrip (l : List Char) : List Char :=
  ((l.dropWhile Char.isWhitespace).reverse.dropWhile Char.isWhitespace).reverse

/-- Python `stripped.startswith("#")`. -/
def isCommentStart : List Char → Bool
  | '#' :: _ => true
  | _ => false

/-- Python `"=" in stripped`. -/
def hasEq (l : List Char) : Bool := l.any (fun c => c = '=')

/-- Python `stripped.split("=", 1)` when `"="` occurs in the line: the part
before the first `'='` and the part after it. -/
def splitOnceEq : List Char → List Char × List Char
  | [] => ([], [])
  | c :: cs =>
    if c = '=' then ([], cs)
    else
      let p := splitOnceEq cs
      (c :: p.1, p.2)

/-- The `ValueError`s that `load_credentials` can raise: a content line
without `'='` (the error names that line), or a missing/empty
`username`/`password` after the whole file was parsed. -/
inductive CredError where
  | invalidLine (line : List Char)
  | missingCredentials
deriving DecidableEq

/-- The key `"username"`. -/
def usernameKey : List Char := "username".data

/-- The key `"password"`. -/
def passwordKey : List Char := "password".data

/-- One iteration of the `for line in ...` loop of `load_credentials`:
given the current `(username, password)` state and a raw line, either skip
the line, raise, or update the state. -/
def parseLine (acc : Option (List Char) × Option (List Char))
    (line : List Char) :
    Except CredError (Option (List Char) × Option (List Char)) :=
  let stripped := pyStrip line
  if stripped.isEmpty || isCommentStart stripped then .ok acc
  else if !hasEq stripped then .error (.invalidLine line)
  else
    let kv := splitOnceEq stripped
    let key := pyStrip kv.1
    let value := pyStrip kv.2
    if key = usernameKey then .ok (some value, acc.2)
    else if key = passwordKey then .ok (acc.1, some value)
    else .ok acc

/-- The whole `for` loop of `load_credentials`. -/
def scanLines :
    List (List Char) → Option (List Char) × Option (List Char) →
    Except CredError (Option (List Char) × Option (List Char))
  | [], acc => .ok acc
  | l :: ls, acc =>
    match parseLine acc l with
    | .error e => .error e
    | .ok acc2 => scanLines ls acc2

/-- `load_credentials` from `login_bot.py`, with the file given as its
list of lines (`splitlines`).  Mirrors the final
`if not username or not password` check. -/
def load_credentials (lines : List (List Char)) :
    Except CredError (List Char × List Char) :=
  match scanLines lines (none, none) with
  | .error e => .error e
  | .ok (some u, some p) =>
    if u.isEmpty || p.isEmpty then .error .missingCredentials
    else .ok (u, p)
  | .ok _ => .error .missingCredentials

/-- A line the parser accepts without raising: blank, comment, or
containing `'='`. -/
def lineOk (l : List Char) : Bool :=
  let s := pyStrip l
  s.isEmpty || isCommentStart s || hasEq s

/-- The `(key, value)` entry a line contributes, if any: `none` for blank
and comment lines and for lines without `'='`. -/
def entryOf (l : List Char) : Option (List Char × List Char) :=
  let s := pyStrip l
  if s.isEmpty || isCommentStart s then none
  else if hasEq s then
    some (pyStrip (splitOnceEq s).1, pyStrip (splitOnceEq s).2)
  else none

/-- The value of the last entry for `key` in the file, if any
(last-occurrence-wins). -/
def lastValue (key : List Char) (lines : List (List Char)) :
    Option (List Char) :=
  lines.foldl (fun acc l =>
    match entryOf l with
    | some kv => if kv.1 = key then some kv.2 else acc
    | none => acc) none

/-- `some`-biased choice: the first argument unless it is `none`. -/
def orElseOpt (o d : Option (List Char)) : Option (List Char) :=
  match o with
  | some v => some v
  | none => d

/-- The pure state update performed by a non-raising line. -/
def stepAcc (acc : Option (List Char) × Option (List Char))
    (l : List Char) : Option (List Char) × Option (List Char) :=
  match entryOf l with
  | some kv =>
    if kv.1 = usernameKey then (some kv.2, acc.2)
    else if kv.1 = passwordKey then (acc.1, some kv.2)
    else acc
  | none => acc

/-- The value a single line contributes for `key`, if any. -/
def contrib (key : List Char) (l : List Char) : Option (List Char) :=
  match entryOf l with
  | some kv => if kv.1 = key then some kv.2 else none
  | none => none

deriving instance DecidableEq for Except

/-- Whether an optional credential value is "truthy" in Python terms:
present and non-empty. -/
def credPresent : Option (List Char) → Bool
  | none => false
  | some v => !v.isEmpty

/-- The fixed identifiers of the login-form elements of `login_bot.py`. -/
inductive Elem where
  | usernameField
  | passwordField
  | loginButton
deriving DecidableEq

/-- The DOM id string of each element, as in the source constants
`USERNAME_FIELD_ID`, `PASSWORD_FIELD_ID`, `LOGIN_BUTTON_ID`. -/
def elemIdString : Elem → String
  | .usernameField => "username"
  | .passwordField => "password"
  | .loginButton => "loginbtn"

/-- The fixed navigation targets of `login_bot.py`. -/
inductive Url where
  | loginPage
  | courseHome
  | moduleOne
  | recoveryModule
  | assignmentPage
deriving DecidableEq

/-- The URL string of each navigation target, as in the source constants
`LOGIN_URL`, `COURSE_HOME_URL`, `MODULE_ONE_URL`, `RECOVERY_MODULE_URL`,
`ASSIGNMENT_URL`. -/
def urlString : Url → String
  | .loginPage => "https://campusvirtual.cedsa.edu.ar/postitulo/login/index.php"
  | .courseHome => "https://campusvirtual.cedsa.edu.ar/postitulo/course/view.php?id=94"
  | .moduleOne => "https://campusvirtual.cedsa.edu.ar/postitulo/course/view.php?id=94&section=4"
  | .recoveryModule => "https://campusvirtual.cedsa.edu.ar/postitulo/course/view.php?id=94&section=3"
  | .assignmentPage => "https://campusvirtual.cedsa.edu.ar/postitulo/mod/assign/view.php?id=16088"

/-- `TEN_MINUTES_SECONDS = 10 * 60` from the source. -/
def TEN_MINUTES_SECONDS : Nat := 10 * 60

/-- The observable events of a `login` run. -/
inductive Event where
  | createDriver
  | navigate (url : Url)
  | waitPresence (field : Elem)
  | waitClickable (field : Elem)
  | clearField (field : Elem)
  | sendKeys (field : Elem) (text : List Char)
  | click (field : Elem)
  | waitUrlChanged (url : Url)
  | waitUrlIs (url : Url)
  | sleep (seconds : Nat)
  | printMsg (msg : String)
  | quit
deriving DecidableEq

/-- The login-form interaction: single navigation to the login page, the
three bounded element waits, clear-and-fill of the two fields, the single
click, and the wait for the URL to change (lines 112-133 of
`login_bot.py`). -/
def loginFormSteps (u p : List Char) : List (Step Event) := [
  .eff (.navigate .loginPage),
  .eff (.waitPresence .usernameField),
  .eff (.waitPresence .passwordField),
  .eff (.waitClickable .loginButton),
  .eff (.clearField .usernameField),
  .eff (.sendKeys .usernameField u),
  .eff (.clearField .passwordField),
  .eff (.sendKeys .passwordField p),
  .eff (.click .loginButton),
  .eff (.waitUrlChanged .loginPage)]

/-- The fixed navigation sequence after login and before the loop
(lines 134-159 of `login_bot.py`). -/
def postLoginSteps : List (Step Event) := [
  .note (.printMsg "Login attempt submitted."),
  .eff (.navigate .courseHome),
  .eff (.waitUrlIs .courseHome),
  .note (.printMsg "Opened the diplomatura course page."),
  .eff (.navigate .recoveryModule),
  .eff (.waitUrlIs .recoveryModule),
  .note (.printMsg "Opened the recovery module page."),
  .eff (.navigate .assignmentPage),
  .eff (.waitUrlIs .assignmentPage),
  .note (.printMsg "Opened the assignment page. Waiting 10 seconds before starting the navigation loop..."),
  .eff (.sleep 10),
  .eff (.navigate .courseHome),
  .eff (.waitUrlIs .courseHome),
  .note (.printMsg "Starting 10-minute navigation loop between the course home and Module 1."),
  .note (.printMsg "Close the browser window or press Ctrl+C in the terminal to stop the script.")]

/-- Everything inside the outer `try:` before the `while True:` loop. -/
def preSteps (u p : List Char) : List (Step Event) :=
  loginFormSteps u p ++ postLoginSteps

/-- One iteration of the `while True:` keepalive loop
(lines 162-174 of `login_bot.py`). -/
def navLoopSteps : List (Step Event) := [
  .note (.printMsg "Waiting 10 minutes on the course home page before visiting Module 1..."),
  .eff (.sleep TEN_MINUTES_SECONDS),
  .eff (.navigate .moduleOne),
  .eff (.waitUrlIs .moduleOne),
  .note (.printMsg "Module 1 opened. Waiting 10 minutes before returning to the course home..."),
  .eff (.sleep TEN_MINUTES_SECONDS),
  .eff (.navigate .courseHome),
  .eff (.waitUrlIs .courseHome),
  .note (.printMsg "Returned to the course home page.")]

/-- The message printed by each of the two exception handlers around the
loop. -/
def handlerMsg : Exc → String
  | .keyboardInterrupt => "Navigation loop interrupted by user."
  | _ => "WebDriver reported an issue (browser may have been closed):"

/-- The `while True:` loop wrapped in its
`except KeyboardInterrupt` / `except WebDriverException` handlers:
those two exceptions are swallowed after a log print, everything else
propagates. -/
def loopGuarded (env : Nat → Option Exc) (fuel k : Nat) :
    List Event × Nat × Sig :=
  let r := runLoop env navLoopSteps fuel k
  match r.2.2 with
  | .exc .keyboardInterrupt =>
    (r.1 ++ [.printMsg (handlerMsg .keyboardInterrupt)], r.2.1, .ok)
  | .exc .webDriverError =>
    (r.1 ++ [.printMsg (handlerMsg .webDriverError)], r.2.1, .ok)
  | s => (r.1, r.2.1, s)

/-- The body of the outer `try:` of `login`: the pre-loop straight-line
code followed (on success) by the guarded loop. -/
def loginBody (u p : List Char) (env : Nat → Option Exc) (fuel : Nat) :
    List Event × Nat × Sig :=
  let r := runSeq env (preSteps u p) 1
  match r.2.2 with
  | .ok =>
    let r2 := loopGuarded env fuel r.2.1
    (r.1 ++ r2.1, r2.2)
  | s => (r.1, r.2.1, s)

/-- `login` from `login_bot.py`: load credentials (raising `ValueError`
before any driver exists on a bad file), create the driver (effect index
0; on failure no session exists and no cleanup runs), run the body, and
release the driver (`finally: driver.quit()`) on every exit path of the
`try`.  When the fuel runs out the run is still inside the infinite loop,
so no exit path was taken yet and `quit` has not run. -/
def login (env : Nat → Option Exc) (fuel : Nat)
    (credLines : List (List Char)) : List Event × Sig :=
  match load_credentials credLines with
  | .error _ => ([], .exc .valueError)
  | .ok (u, p) =>
    match env 0 with
    | some e => ([], .exc e)
    | none =>
      let r := loginBody u p env fuel
      match r.2.2 with
      | .fuelOut => (.createDriver :: r.1, .fuelOut)
      | s => (.createDriver :: (r.1 ++ [.quit]), s)

/-- The navigation-level observables of a trace: navigations, URL waits
and sleeps (log prints, element interaction and lifecycle events are not
part of the keepalive contract). -/
def isObsEvent : Event → Bool
  | .navigate _ => true
  | .waitUrlIs _ => true
  | .waitUrlChanged _ => true
  | .sleep _ => true
  | _ => false

/-- Projection of a trace to its navigation-level observables. -/
def obsTrace (t : List Event) : List Event := t.filter isObsEvent

/-- The navigation observables of one keepalive-loop iteration. -/
def keepaliveIterObs : List Event :=
  [.sleep TEN_MINUTES_SECONDS, .navigate .moduleOne, .waitUrlIs .moduleOne,
   .sleep TEN_MINUTES_SECONDS, .navigate .courseHome, .waitUrlIs .courseHome]

/-- Modelled from the spec's words (claim C5): the post-login
navigation-level behaviour exactly as the claim states it — course home,
recovery section, assignment page (each confirmed), a settle delay after
the last one, and then directly the alternation loop. -/
def specClaimedKeepalive (fuel : Nat) : List Event :=
  [.navigate .courseHome, .waitUrlIs .courseHome,
   .navigate .recoveryModule, .waitUrlIs .recoveryModule,
   .navigate .assignmentPage, .waitUrlIs .assignmentPage,
   .sleep 10] ++ (List.replicate fuel keepaliveIterObs).flatten

/-- The amended post-login navigation-level behaviour: as claimed, except
that after the settle delay the procedure navigates back to the course
home (confirmed by exact URL match) before entering the alternation. -/
def amendedKeepalive (fuel : Nat) : List Event :=
  [.navigate .courseHome, .waitUrlIs .courseHome,
   .navigate .recoveryModule, .waitUrlIs .recoveryModule,
   .navigate .assignmentPage, .waitUrlIs .assignmentPage,
   .sleep 10, .navigate .courseHome, .waitUrlIs .courseHome] ++
  (List.replicate fuel keepaliveIterObs).flatten

/-- The exact event prefix of a run whose login phase succeeds: driver
creation, one navigation to the login page, the three bounded waits, the
clear-and-fill of the two fields (username then password), the single
click, and only then the wait for the URL to change. -/
def loginPhasePrefix (u p : List Char) : List Event :=
  [.createDriver, .navigate .loginPage, .waitPresence .usernameField,
   .waitPresence .passwordField, .waitClickable .loginButton,
   .clearField .usernameField, .sendKeys .usernameField u,
   .clearField .passwordField, .sendKeys .passwordField p,
   .click .loginButton, .waitUrlChanged .loginPage]

/-- A two-line credentials file used as a concrete witness input. -/
def sampleLines : List (List Char) :=
  ["username=alice".data, "password=secret".data]

/-- A credentials file with a duplicate `username` key. -/
def dupLines : List (List Char) :=
  ["username=bob".data, "username=alice".data, "password=secret".data]

/-- A credentials file containing a non-empty `username` entry and a
non-empty `password` entry, whose last `username` occurrence has an empty
value. -/
def cexLines : List (List Char) :=
  ["username=alice".data, "password=secret".data, "username=".data]

end LoginBot

namespace AutoRefresh

/-- The observable events of an `actualizar_pagina` run. -/
inductive REvent where
  | openPage (url : String)
  | sleepSeconds (s : ℚ)
  | refresh
  | statusLine
  | quitDriver
deriving DecidableEq

/-- The fixed URL the `__main__` entry point of `auto_refresh.py` opens. -/
def REFRESH_URL : String :=
  "https://campusvirtual.cedsa.edu.ar/postitulo/course/view.php?id=38"

/-- One iteration of the refresh loop: sleep `intervalo_minutos * 60`
seconds, reload, print a status line. -/
def refreshIterSteps (mins : ℚ) : List (Step REvent) :=
  [.eff (.sleepSeconds (mins * 60)), .eff .refresh, .note .statusLine]

/-- `actualizar_pagina` from `auto_refresh.py`: create the headless driver
(effect index 0), open `url` once (effect index 1), then loop forever.
The `with` block closes the driver on any exit of its body; nothing inside
the loop catches exceptions, so any failure propagates. -/
def actualizar_pagina (env : Nat → Option Exc) (fuel : Nat) (url : String)
    (mins : ℚ) : List REvent × Sig :=
  match env 0 with
  | some e => ([], .exc e)
  | none =>
    match env 1 with
    | some e => ([.openPage url, .quitDriver], .exc e)
    | none =>
      let r := runLoop env (refreshIterSteps mins) fuel 2
      match r.2.2 with
      | .fuelOut => (.openPage url :: r.1, .fuelOut)
      | s => (.openPage url :: (r.1 ++ [.quitDriver]), s)

end AutoRefresh

theorem runSeq_nil {α : Type} (env : Nat → Option Exc) (k : Nat) :
    runSeq (α := α) env [] k = ([], k, .ok) := rfl

theorem runSeq_note {α : Type} (env : Nat → Option Exc) (ev : α)
    (rest : List (Step α)) (k : Nat) :
    runSeq env (.note ev :: rest) k =
      ((ev :: (runSeq env rest k).1, (runSeq env rest k).2)) := rfl

theorem runSeq_eff_none {α : Type} (env : Nat → Option Exc) (ev : α)
    (rest : List (Step α)) (k : Nat) (h : env k = none) :
    runSeq env (.eff ev :: rest) k =
      ((ev :: (runSeq env rest (k + 1)).1, (runSeq env rest (k + 1)).2)) := by
  simp [runSeq, h]

theorem runSeq_eff_some {α : Type} (env : Nat → Option Exc) (ev : α)
    (rest : List (Step α)) (k : Nat) (e : Exc) (h : env k = some e) :
    runSeq env (.eff ev :: rest) k = ([ev], k + 1, .exc e) := by
  simp [runSeq, h]

/-- When all relevant environment entries are `none`, a straight-line run
succeeds, records every step, and consumes exactly `effCount` effect
indices. -/
theorem runSeq_all_none {α : Type} (env : Nat → Option Exc) :
    ∀ (s : List (Step α)) (k : Nat),
      (∀ j, j < effCount s → env (k + j) = none) →
      runSeq env s k = (s.map stepEv, k + effCount s, .ok) := by
  intro s
  induction s with
  | nil => intro k _; simp [runSeq, effCount]
  | cons st rest ih =>
    intro k h
    cases st with
    | note ev =>
      have hc : effCount (Step.note ev :: rest) = effCount rest := by
        simp [effCount, List.countP_cons]
      rw [runSeq_note, ih k (by intro j hj; exact h j (by rw [hc]; exact hj))]
      simp [hc, stepEv]
    | eff ev =>
      have hc : effCount (Step.eff ev :: rest) = effCount rest + 1 := by
        simp [effCount, List.countP_cons]
      have h0 : env k = none := by
        have := h 0 (by rw [hc]; omega)
        simpa using this
      have hrest : ∀ j, j < effCount rest → env (k + 1 + j) = none := by
        intro j hj
        have := h (j + 1) (by rw [hc]; omega)
        have hkj : k + 1 + j = k + (j + 1) := by omega
        rw [hkj]; exact this
      rw [runSeq_eff_none env ev rest k h0, ih (k + 1) hrest]
      simp [hc, stepEv]
      omega

/-- Every event in a straight-line trace comes from the step list. -/
theorem runSeq_mem {α : Type} (env : Nat → Option Exc) :
    ∀ (s : List (Step α)) (k : Nat) (a : α),
      a ∈ (runSeq env s k).1 → a ∈ s.map stepEv := by
  intro s
  induction s with
  | nil => intro k a h; simp [runSeq] at h
  | cons st rest ih =>
    intro k a h
    cases st with
    | note ev =>
      rw [runSeq_note] at h
      rcases List.mem_cons.mp h with h' | h'
      · simp [stepEv, h']
      · exact List.mem_cons_of_mem _ (ih k a h')
    | eff ev =>
      cases he : env k with
      | some e =>
        rw [runSeq_eff_some env ev rest k e he] at h
        simp at h
        simp [stepEv, h]
      | none =>
        rw [runSeq_eff_none env ev rest k he] at h
        rcases List.mem_cons.mp h with h' | h'
        · simp [stepEv, h']
        · exact List.mem_cons_of_mem _ (ih (k + 1) a h')

/-- A straight-line run never ends with `fuelOut`. -/
theorem runSeq_sig_ne {α : Type} (env : Nat → Option Exc) :
    ∀ (s : List (Step α)) (k : Nat), (runSeq env s k).2.2 ≠ .fuelOut := by
  intro s
  induction s with
  | nil => intro k; simp [runSeq]
  | cons st rest ih =>
    intro k
    cases st with
    | note ev => rw [runSeq_note]; exact ih k
    | eff ev =>
      cases he : env k with
      | some e => rw [runSeq_eff_some env ev rest k e he]; simp
      | none => rw [runSeq_eff_none env ev rest k he]; exact ih (k + 1)

/-- If the first failing environment entry lies within the effect budget
of a straight-line run, the run raises exactly that exception. -/
theorem runSeq_raise {α : Type} (env : Nat → Option Exc) :
    ∀ (s : List (Step α)) (k j : Nat) (e : Exc),
      (∀ i, i < j → env (k + i) = none) → env (k + j) = some e →
      j < effCount s → (runSeq env s k).2.2 = .exc e := by
  intro s
  induction s with
  | nil => intro k j e _ _ hj; simp [effCount] at hj
  | cons st rest ih =>
    intro k j e hlt hj hcount
    cases st with
    | note ev =>
      rw [runSeq_note]
      exact ih k j e hlt hj (by simpa [effCount, List.countP_cons] using hcount)
    | eff ev =>
      cases j with
      | zero =>
        have : env k = some e := by simpa using hj
        rw [runSeq_eff_some env ev rest k e this]
      | succ j' =>
        have h0 : env k = none := by simpa using hlt 0 (Nat.succ_pos _)
        rw [runSeq_eff_none env ev rest k h0]
        refine ih (k + 1) j' e ?_ ?_ ?_
        · intro i hi
          have := hlt (i + 1) (by omega)
          have hki : k + 1 + i = k + (i + 1) := by omega
          rw [hki]; exact this
        · have hkj : k + 1 + j' = k + (j' + 1) := by omega
          rw [hkj]; exact hj
        · have : effCount (Step.eff ev :: rest) = effCount rest + 1 := by
            simp [effCount, List.countP_cons]
          omega

/-- Splitting a straight-line run whose first part succeeds. -/
theorem runSeq_append_ok {α : Type} (env : Nat → Option Exc) :
    ∀ (s1 s2 : List (Step α)) (k : Nat),
      (runSeq env s1 k).2.2 = .ok →
      runSeq env (s1 ++ s2) k =
        ((runSeq env s1 k).1 ++ (runSeq env s2 (runSeq env s1 k).2.1).1,
          (runSeq env s2 (runSeq env s1 k).2.1).2) := by
  intro s1
  induction s1 with
  | nil => intro s2 k _; simp [runSeq]
  | cons st rest ih =>
    intro s2 k hok
    cases st with
    | note ev =>
      rw [runSeq_note] at hok
      have := ih s2 k hok
      simp only [List.cons_append, runSeq_note, this]
    | eff ev =>
      cases he : env k with
      | some e =>
        rw [runSeq_eff_some env ev rest k e he] at hok
        simp at hok
      | none =>
        rw [runSeq_eff_none env ev rest k he] at hok
        have := ih s2 (k + 1) hok
        simp only [List.cons_append, runSeq_eff_none env ev _ k he, this]

/-- A loop run with an entirely benign environment exhausts its fuel,
recording `fuel` copies of the iteration events. -/
theorem runLoop_all_none {α : Type} (env : Nat → Option Exc)
    (iter : List (Step α)) (henv : ∀ i, env i = none) :
    ∀ (fuel k : Nat),
      runLoop env iter fuel k =
        ((List.replicate fuel (iter.map stepEv)).flatten,
          k + fuel * effCount iter, .fuelOut) := by
  intro fuel
  induction fuel with
  | zero => intro k; simp [runLoop]
  | succ f ih =>
    intro k
    have h1 : runSeq env iter k = (iter.map stepEv, k + effCount iter, .ok) :=
      runSeq_all_none env iter k (fun j _ => henv (k + j))
    simp only [runLoop, h1, ih (k + effCount iter)]
    simp [List.replicate_succ, Nat.succ_mul]
    omega

/-- Every event in a loop trace comes from the iteration step list. -/
theorem runLoop_mem {α : Type} (env : Nat → Option Exc)
    (iter : List (Step α)) :
    ∀ (fuel k : Nat) (a : α),
      a ∈ (runLoop env iter fuel k).1 → a ∈ iter.map stepEv := by
  intro fuel
  induction fuel with
  | zero => intro k a h; simp [runLoop] at h
  | succ f ih =>
    intro k a h
    simp only [runLoop] at h
    cases hsig : (runSeq env iter k).2.2 with
    | ok =>
      rw [hsig] at h
      simp only [] at h
      rcases List.mem_append.mp h with h' | h'
      · exact runSeq_mem env iter k a h'
      · exact ih (runSeq env iter k).2.1 a h'
    | exc e =>
      rw [hsig] at h
      exact runSeq_mem env iter k a h
    | fuelOut =>
      exact absurd hsig (runSeq_sig_ne env iter k)

/-- If the first failing environment entry lies within the total effect
budget of `fuel` loop iterations, the loop raises exactly that
exception. -/
theorem runLoop_raise {α : Type} (env : Nat → Option Exc)
    (iter : List (Step α)) :
    ∀ (fuel k j : Nat) (e : Exc),
      (∀ i, i < j → env (k + i) = none) → env (k + j) = some e →
      j < fuel * effCount iter →
      (runLoop env iter fuel k).2.2 = .exc e := by
  intro fuel
  induction fuel with
  | zero => intro k j e _ _ hj; simp at hj
  | succ f ih =>
    intro k j e hlt hj hcount
    by_cases hsmall : j < effCount iter
    · have hr := runSeq_raise env iter k j e hlt hj hsmall
      simp only [runLoop, hr]
    · have hall : ∀ i, i < effCount iter → env (k + i) = none := by
        intro i hi; exact hlt i (by omega)
      have h1 : runSeq env iter k = (iter.map stepEv, k + effCount iter, .ok) :=
        runSeq_all_none env iter k hall
      simp only [runLoop, h1]
      refine ih (k + effCount iter) (j - effCount iter) e ?_ ?_ ?_
      · intro i hi
        have := hlt (effCount iter + i) (by omega)
        simpa [Nat.add_assoc] using this
      · have : k + effCount iter + (j - effCount iter) = k + j := by omega
        rw [this]; exact hj
      · have := hcount
        simp [Nat.succ_mul] at this ⊢
        omega

/-- A loop run never completes normally: it either raises or runs out of
fuel. -/
theorem runLoop_sig_ne {α : Type} (env : Nat → Option Exc)
    (iter : List (Step α)) :
    ∀ (fuel k : Nat), (runLoop env iter fuel k).2.2 ≠ .ok := by
  intro fuel
  induction fuel with
  | zero => intro k; simp [runLoop]
  | succ f ih =>
    intro k
    simp only [runLoop]
    cases hsig : (runSeq env iter k).2.2 with
    | ok => exact ih (runSeq env iter k).2.1
    | exc e => simp
    | fuelOut => exact absurd hsig (runSeq_sig_ne env iter k)

namespace LoginBot

theorem uk_ne_pk : usernameKey ≠ passwordKey := by decide

theorem parseLine_ok (acc : Option (List Char) × Option (List Char))
    (l : List Char) (h : lineOk l = true) :
    parseLine acc l = .ok (stepAcc acc l) := by
  rcases hblank : ((pyStrip l).isEmpty || isCommentStart (pyStrip l)) with _ | _
  · have h' : (((pyStrip l).isEmpty || isCommentStart (pyStrip l)) ||
        hasEq (pyStrip l)) = true := h
    rw [hblank] at h'
    simp only [Bool.false_or] at h'
    by_cases hk : pyStrip (splitOnceEq (pyStrip l)).1 = usernameKey
    · simp [parseLine, stepAcc, entryOf, hblank, h', hk]
    · by_cases hp : pyStrip (splitOnceEq (pyStrip l)).1 = passwordKey
      · have hpu : ¬(passwordKey = usernameKey) := fun hc => uk_ne_pk hc.symm
        simp [parseLine, stepAcc, entryOf, hblank, h', hk, hp, hpu]
      · simp [parseLine, stepAcc, entryOf, hblank, h', hk, hp]
  · simp [parseLine, stepAcc, entryOf, hblank]

theorem scanLines_ok (lines : List (List Char)) :
    ∀ acc, (∀ l ∈ lines, lineOk l = true) →
      scanLines lines acc = .ok (lines.foldl stepAcc acc) := by
  induction lines with
  | nil => intro acc _; simp [scanLines]
  | cons l ls ih =>
    intro acc h
    have hl : lineOk l = true := h l (List.mem_cons_self l ls)
    simp only [scanLines, parseLine_ok acc l hl]
    exact ih (stepAcc acc l) (fun x hx => h x (List.mem_cons_of_mem l hx))

theorem orElseOpt_some (v : List Char) (d : Option (List Char)) :
    orElseOpt (some v) d = some v := rfl

theorem orElseOpt_none (d : Option (List Char)) :
    orElseOpt none d = d := rfl

theorem orElseOpt_assoc (o d a : Option (List Char)) :
    orElseOpt (orElseOpt o d) a = orElseOpt o (orElseOpt d a) := by
  cases o <;> cases d <;> rfl

/-- Restarting the `lastValue` fold from an arbitrary accumulator. -/
theorem foldl_lastValue (key : List Char) (lines : List (List Char)) :
    ∀ a, lines.foldl (fun acc l =>
        match entryOf l with
        | some kv => if kv.1 = key then some kv.2 else acc
        | none => acc) a = orElseOpt (lastValue key lines) a := by
  induction lines with
  | nil => intro a; simp [lastValue, orElseOpt]
  | cons l ls ih =>
    intro a
    simp only [lastValue, List.foldl_cons] at *
    cases he : entryOf l with
    | none => simp only [he]; rw [ih a, ih none, orElseOpt_assoc, orElseOpt_none]
    | some kv =>
      simp only [he]
      by_cases hk : kv.1 = key
      · rw [if_pos hk, if_pos hk, ih (some kv.2), orElseOpt_assoc, orElseOpt_some]
      · rw [if_neg hk, if_neg hk]
        exact ih a

theorem lastValue_cons (key l : List Char) (ls : List (List Char)) :
    lastValue key (l :: ls) = orElseOpt (lastValue key ls) (contrib key l) := by
  simp only [lastValue, contrib, List.foldl_cons]
  cases he : entryOf l with
  | none => exact foldl_lastValue key ls none
  | some kv =>
    dsimp only
    by_cases hk : kv.1 = key
    · rw [if_pos hk]
      exact foldl_lastValue key ls (some kv.2)
    · rw [if_neg hk]
      exact foldl_lastValue key ls none

theorem stepAcc_fst (acc : Option (List Char) × Option (List Char))
    (l : List Char) :
    (stepAcc acc l).1 = orElseOpt (contrib usernameKey l) acc.1 := by
  unfold stepAcc contrib
  cases he : entryOf l with
  | none => rfl
  | some kv =>
    dsimp only
    by_cases hk : kv.1 = usernameKey
    · rw [if_pos hk, if_pos hk]
      exact rfl
    · rw [if_neg hk, if_neg hk]
      by_cases hp : kv.1 = passwordKey
      · rw [if_pos hp]
        exact rfl
      · rw [if_neg hp]
        exact rfl

theorem stepAcc_snd (acc : Option (List Char) × Option (List Char))
    (l : List Char) :
    (stepAcc acc l).2 = orElseOpt (contrib passwordKey l) acc.2 := by
  unfold stepAcc contrib
  cases he : entryOf l with
  | none => rfl
  | some kv =>
    dsimp only
    by_cases hk : kv.1 = usernameKey
    · have hp : kv.1 ≠ passwordKey := by rw [hk]; exact uk_ne_pk
      rw [if_pos hk, if_neg hp]
      exact rfl
    · rw [if_neg hk]
      by_cases hp : kv.1 = passwordKey
      · rw [if_pos hp, if_pos hp]
        exact rfl
      · rw [if_neg hp, if_neg hp]
        exact rfl

theorem foldl_stepAcc_fst (lines : List (List Char)) :
    ∀ acc, (lines.foldl stepAcc acc).1 =
      orElseOpt (lastValue usernameKey lines) acc.1 := by
  induction lines with
  | nil => intro acc; rfl
  | cons l ls ih =>
    intro acc
    rw [List.foldl_cons, ih (stepAcc acc l), lastValue_cons, orElseOpt_assoc,
      stepAcc_fst]

theorem foldl_stepAcc_snd (lines : List (List Char)) :
    ∀ acc, (lines.foldl stepAcc acc).2 =
      orElseOpt (lastValue passwordKey lines) acc.2 := by
  induction lines with
  | nil => intro acc; rfl
  | cons l ls ih =>
    intro acc
    rw [List.foldl_cons, ih (stepAcc acc l), lastValue_cons, orElseOpt_assoc,
      stepAcc_snd]

/-- Characterisation of `load_credentials` on a fully parsable file in
terms of the last-occurrence values of the two keys. -/
theorem load_credentials_characterisation (lines : List (List Char))
    (h : ∀ l ∈ lines, lineOk l = true) :
    load_credentials lines =
      match lastValue usernameKey lines, lastValue passwordKey lines with
      | some u, some p =>
        if u.isEmpty || p.isEmpty then .error .missingCredentials
        else .ok (u, p)
      | _, _ => .error .missingCredentials := by
  unfold load_credentials
  rw [scanLines_ok lines (none, none) h]
  have h1 := foldl_stepAcc_fst lines (none, none)
  have h2 := foldl_stepAcc_snd lines (none, none)
  cases hu : lastValue usernameKey lines with
  | none =>
    rw [hu] at h1
    simp only [orElseOpt_none] at h1
    rcases hfold : lines.foldl stepAcc (none, none) with ⟨a, b⟩
    rw [hfold] at h1
    simp at h1
    subst h1
    cases hp : lastValue passwordKey lines <;> simp
  | some u =>
    rw [hu] at h1
    simp only [orElseOpt_some] at h1
    cases hp : lastValue passwordKey lines with
    | none =>
      rw [hp] at h2
      simp only [orElseOpt_none] at h2
      rcases hfold : lines.foldl stepAcc (none, none) with ⟨a, b⟩
      rw [hfold] at h1 h2
      simp at h1 h2
      subst h1; subst h2
      simp
    | some p =>
      rw [hp] at h2
      simp only [orElseOpt_some] at h2
      rcases hfold : lines.foldl stepAcc (none, none) with ⟨a, b⟩
      rw [hfold] at h1 h2
      simp at h1 h2
      subst h1; subst h2
      simp

/-- A line on which `parseLine` is a no-op for every state can be inserted
or removed anywhere without changing the parse of the whole file. -/
theorem load_credentials_insert_noop (b : List Char)
    (hb : ∀ acc, parseLine acc b = .ok acc) (l1 l2 : List (List Char)) :
    load_credentials (l1 ++ b :: l2) = load_credentials (l1 ++ l2) := by
  have hscan : ∀ acc, scanLines (l1 ++ b :: l2) acc = scanLines (l1 ++ l2) acc := by
    induction l1 with
    | nil =>
      intro acc
      simp only [List.nil_append, scanLines, hb acc]
    | cons x xs ih =>
      intro acc
      simp only [List.cons_append, scanLines]
      cases parseLine acc x with
      | error e => rfl
      | ok acc2 => exact ih acc2
  unfold load_credentials
  rw [hscan]

end LoginBot

namespace LoginBot

theorem parseLine_skip (b : List Char)
    (hb : (pyStrip b).isEmpty = true ∨ isCommentStart (pyStrip b) = true) :
    ∀ acc, parseLine acc b = .ok acc := by
  intro acc
  rcases hb with hb | hb <;> simp [parseLine, hb]

theorem parseLine_raises (acc : Option (List Char) × Option (List Char))
    (bad : List Char) (hb : pyStrip bad ≠ [])
    (hc : isCommentStart (pyStrip bad) = false)
    (he : hasEq (pyStrip bad) = false) :
    parseLine acc bad = .error (.invalidLine bad) := by
  have hb' : (pyStrip bad).isEmpty = false := by
    rcases hpb : pyStrip bad with _ | ⟨a, as⟩
    · exact absurd hpb hb
    · rfl
  simp [parseLine, hb', hc, he]

theorem scanLines_append (l1 : List (List Char)) :
    ∀ (rest : List (List Char)) acc, (∀ l ∈ l1, lineOk l = true) →
      scanLines (l1 ++ rest) acc = scanLines rest (l1.foldl stepAcc acc) := by
  induction l1 with
  | nil => intro rest acc _; simp [scanLines]
  | cons x xs ih =>
    intro rest acc h
    simp only [List.cons_append, scanLines,
      parseLine_ok acc x (h x (List.mem_cons_self x xs)), List.foldl_cons]
    exact ih rest (stepAcc acc x) (fun l hl => h l (List.mem_cons_of_mem x hl))

theorem mem_pyStrip (c : Char) (l : List Char) (h : c ∈ pyStrip l) :
    c ∈ l := by
  unfold pyStrip at h
  rw [List.mem_reverse] at h
  have h1 : c ∈ (l.dropWhile Char.isWhitespace).reverse :=
    List.Sublist.mem h (List.dropWhile_sublist _)
  rw [List.mem_reverse] at h1
  exact List.Sublist.mem h1 (List.dropWhile_sublist _)

theorem hasEq_pyStrip_false (l : List Char) (h : hasEq l = false) :
    hasEq (pyStrip l) = false := by
  rcases hx : hasEq (pyStrip l) with _ | _
  · rfl
  · exfalso
    unfold hasEq at hx
    rw [List.any_eq_true] at hx
    obtain ⟨c, hc, hceq⟩ := hx
    have hl : hasEq l = true := by
      unfold hasEq
      rw [List.any_eq_true]
      exact ⟨c, mem_pyStrip c l hc, hceq⟩
    rw [h] at hl
    exact Bool.false_ne_true hl

/-- C1 counterexample: a well-formed file in which a non-empty `username`
entry and a non-empty `password` entry are both present, yet
`load_credentials` raises instead of returning a pair, because the last
`username` occurrence has an empty value. -/
theorem c1_counterexample :
    (∀ l ∈ cexLines, lineOk l = true) ∧
    (∃ l ∈ cexLines, ∃ v, entryOf l = some (usernameKey, v) ∧ v ≠ []) ∧
    (∃ l ∈ cexLines, ∃ v, entryOf l = some (passwordKey, v) ∧ v ≠ []) ∧
    load_credentials cexLines = .error .missingCredentials := by
  refine ⟨by decide, ?_, ?_, by decide⟩
  · exact ⟨"username=alice".data, by decide, "alice".data, by decide, by decide⟩
  · exact ⟨"password=secret".data, by decide, "secret".data, by decide, by decide⟩

/-- C1 (amended): for every well-formed credentials file whose last
`username` entry and last `password` entry both have non-empty trimmed
values, `load_credentials` returns exactly that pair of trimmed values
(last-occurrence-wins on duplicate keys), and inserting a comment or
blank line at any position leaves the returned pair unchanged. -/
theorem c1_load_credentials (lines : List (List Char))
    (hwf : ∀ l ∈ lines, lineOk l = true) (u p : List Char)
    (hu : lastValue usernameKey lines = some u)
    (hp : lastValue passwordKey lines = some p)
    (hu0 : u ≠ []) (hp0 : p ≠ []) :
    load_credentials lines = .ok (u, p) ∧
    ∀ b l1 l2, lines = l1 ++ l2 →
      ((pyStrip b).isEmpty = true ∨ isCommentStart (pyStrip b) = true) →
      load_credentials (l1 ++ b :: l2) = .ok (u, p) := by
  have hu1 : u.isEmpty = false := by
    rcases hcu : u with _ | ⟨a, as⟩
    · exact absurd hcu hu0
    · rfl
  have hp1 : p.isEmpty = false := by
    rcases hcp : p with _ | ⟨a, as⟩
    · exact absurd hcp hp0
    · rfl
  have hmain : load_credentials lines = .ok (u, p) := by
    rw [load_credentials_characterisation lines hwf, hu, hp]
    simp [hu1, hp1]
  refine ⟨hmain, ?_⟩
  intro b l1 l2 hsplit hb
  rw [load_credentials_insert_noop b (parseLine_skip b hb) l1 l2, ← hsplit,
    hmain]

/-- C1 witness: on a concrete file with a duplicate `username` key the
loader returns the trimmed last-occurrence values, and a comment line
inserted in the middle changes nothing. -/
theorem c1_witness :
    load_credentials dupLines = .ok ("alice".data, "secret".data) ∧
    load_credentials (["username=bob".data] ++ "# note".data ::
        ["username=alice".data, "password=secret".data]) =
      .ok ("alice".data, "secret".data) := by
  have h := c1_load_credentials dupLines (by decide) "alice".data
    "secret".data (by decide) (by decide) (by decide) (by decide)
  exact ⟨h.1, h.2 "# note".data ["username=bob".data]
    ["username=alice".data, "password=secret".data] rfl (by decide)⟩

/-- C2: on a fully parsable file in which no non-empty `username` value
or no non-empty `password` value remains after parsing the whole file,
`load_credentials` raises the configuration error; and whenever
`load_credentials` raises, `login` raises a `ValueError` with an empty
trace, so no driver (browser session) is ever created. -/
theorem c2_load_credentials_missing (lines : List (List Char)) :
    ((∀ l ∈ lines, lineOk l = true) →
      (credPresent (lastValue usernameKey lines) = false ∨
        credPresent (lastValue passwordKey lines) = false) →
      load_credentials lines = .error .missingCredentials) ∧
    ((∃ e, load_credentials lines = .error e) →
      ∀ env fuel, login env fuel lines = ([], .exc .valueError) ∧
        Event.createDriver ∉ (login env fuel lines).1) := by
  constructor
  · intro hwf hmiss
    rw [load_credentials_characterisation lines hwf]
    cases hu : lastValue usernameKey lines with
    | none => cases hp : lastValue passwordKey lines <;> rfl
    | some u =>
      cases hp : lastValue passwordKey lines with
      | none => rfl
      | some p =>
        rw [hu, hp] at hmiss
        rcases hmiss with hm | hm
        · have hue : u.isEmpty = true := by
            unfold credPresent at hm
            simpa using hm
          simp [hue]
        · have hpe : p.isEmpty = true := by
            unfold credPresent at hm
            simpa using hm
          simp [hpe]
  · rintro ⟨e, he⟩ env fuel
    constructor
    · simp [login, he]
    · simp [login, he]

/-- C2 witness: a file defining only `username` is rejected with the
configuration error and `login` on it creates no driver. -/
theorem c2_witness :
    load_credentials ["username=alice".data] = .error .missingCredentials ∧
    login envNone 0 ["username=alice".data] = ([], .exc .valueError) := by
  have h := c2_load_credentials_missing ["username=alice".data]
  refine ⟨h.1 (by decide) (by decide), ?_⟩
  exact (h.2 ⟨.missingCredentials, h.1 (by decide) (by decide)⟩ envNone 0).1

/-- C3: a credentials file whose first offending line is non-blank,
not a comment and lacks `'='` makes `load_credentials` fail with the
format error naming exactly that line. -/
theorem c3_invalid_line (l1 l2 : List (List Char)) (bad : List Char)
    (h1 : ∀ l ∈ l1, lineOk l = true)
    (hb : pyStrip bad ≠ [])
    (hc : isCommentStart (pyStrip bad) = false)
    (he : hasEq bad = false) :
    load_credentials (l1 ++ bad :: l2) = .error (.invalidLine bad) := by
  have he' := hasEq_pyStrip_false bad he
  unfold load_credentials
  rw [scanLines_append l1 (bad :: l2) (none, none) h1]
  simp [scanLines, parseLine_raises _ bad hb hc he']

/-- C3 witness: a file whose only line is `foo` fails with the format
error naming `foo`. -/
theorem c3_witness :
    load_credentials ["foo".data] = .error (.invalidLine "foo".data) :=
  c3_invalid_line [] [] "foo".data (by decide) (by decide) (by decide)
    (by decide)

/-- C9: a `key=value` line whose trimmed key is neither `username` nor
`password` is silently ignored: removing it from any position leaves the
result of `load_credentials` (value or error) unchanged. -/
theorem c9_unknown_key_ignored (l k v : List Char)
    (hk : entryOf l = some (k, v)) (hu : k ≠ usernameKey)
    (hp : k ≠ passwordKey) (l1 l2 : List (List Char)) :
    load_credentials (l1 ++ l :: l2) = load_credentials (l1 ++ l2) := by
  have hok : lineOk l = true := by
    simp only [entryOf] at hk
    simp only [lineOk]
    rcases hbl : ((pyStrip l).isEmpty || isCommentStart (pyStrip l)) with _ | _
    · rw [hbl] at hk
      simp only [Bool.false_eq_true, if_false] at hk
      rcases heq : hasEq (pyStrip l) with _ | _
      · rw [heq] at hk; simp at hk
      · simp [hbl, heq]
    · rw [hbl] at hk; simp at hk
  have hskip : ∀ acc, parseLine acc l = .ok acc := by
    intro acc
    rw [parseLine_ok acc l hok]
    unfold stepAcc
    rw [hk]
    dsimp only
    rw [if_neg hu, if_neg hp]
  exact load_credentials_insert_noop l hskip l1 l2

/-- C9 witness: a `server=example` line in the middle of a valid file has
no effect on the parsed result. -/
theorem c9_witness :
    load_credentials
        ["username=alice".data, "server=example".data, "password=secret".data] =
      load_credentials ["username=alice".data, "password=secret".data] :=
  c9_unknown_key_ignored "server=example".data "server".data "example".data
    (by decide) (by decide) (by decide) ["username=alice".data]
    ["password=secret".data]

end LoginBot

namespace LoginBot

theorem effCount_preSteps (u p : List Char) : effCount (preSteps u p) = 19 :=
  rfl

theorem effCount_navLoopSteps : effCount navLoopSteps = 6 := rfl

theorem loopGuarded_mem (env : Nat → Option Exc) (fuel k : Nat) (a : Event)
    (h : a ∈ (loopGuarded env fuel k).1) :
    a ∈ navLoopSteps.map stepEv ∨
      a = .printMsg (handlerMsg .keyboardInterrupt) ∨
      a = .printMsg (handlerMsg .webDriverError) := by
  simp only [loopGuarded] at h
  rcases hsig : (runLoop env navLoopSteps fuel k).2.2 with _ | e | _
  · rw [hsig] at h
    simp only [] at h
    exact Or.inl (runLoop_mem env navLoopSteps fuel k a h)
  · cases e with
    | keyboardInterrupt =>
      rw [hsig] at h
      simp only [] at h
      rcases List.mem_append.mp h with h' | h'
      · exact Or.inl (runLoop_mem env navLoopSteps fuel k a h')
      · simp at h'
        exact Or.inr (Or.inl h')
    | webDriverError =>
      rw [hsig] at h
      simp only [] at h
      rcases List.mem_append.mp h with h' | h'
      · exact Or.inl (runLoop_mem env navLoopSteps fuel k a h')
      · simp at h'
        exact Or.inr (Or.inr h')
    | timeoutError =>
      rw [hsig] at h
      simp only [] at h
      exact Or.inl (runLoop_mem env navLoopSteps fuel k a h)
    | valueError =>
      rw [hsig] at h
      simp only [] at h
      exact Or.inl (runLoop_mem env navLoopSteps fuel k a h)
    | otherError =>
      rw [hsig] at h
      simp only [] at h
      exact Or.inl (runLoop_mem env navLoopSteps fuel k a h)
  · rw [hsig] at h
    simp only [] at h
    exact Or.inl (runLoop_mem env navLoopSteps fuel k a h)

theorem loginBody_mem (u p : List Char) (env : Nat → Option Exc)
    (fuel : Nat) (a : Event) (h : a ∈ (loginBody u p env fuel).1) :
    a ∈ (preSteps u p).map stepEv ∨ a ∈ navLoopSteps.map stepEv ∨
      a = .printMsg (handlerMsg .keyboardInterrupt) ∨
      a = .printMsg (handlerMsg .webDriverError) := by
  simp only [loginBody] at h
  rcases hsig : (runSeq env (preSteps u p) 1).2.2 with _ | e | _
  · rw [hsig] at h
    simp only [] at h
    rcases List.mem_append.mp h with h' | h'
    · exact Or.inl (runSeq_mem env _ 1 a h')
    · rcases loopGuarded_mem env fuel _ a h' with h'' | h'' | h''
      · exact Or.inr (Or.inl h'')
      · exact Or.inr (Or.inr (Or.inl h''))
      · exact Or.inr (Or.inr (Or.inr h''))
  · rw [hsig] at h
    simp only [] at h
    exact Or.inl (runSeq_mem env _ 1 a h)
  · rw [hsig] at h
    simp only [] at h
    exact Or.inl (runSeq_mem env _ 1 a h)

theorem quit_not_in_body (u p : List Char) (env : Nat → Option Exc)
    (fuel : Nat) : Event.quit ∉ (loginBody u p env fuel).1 := by
  intro h
  rcases loginBody_mem u p env fuel _ h with h' | h' | h' | h'
  · simp [preSteps, loginFormSteps, postLoginSteps, stepEv] at h'
  · simp [navLoopSteps, stepEv] at h'
  · simp [handlerMsg] at h'
  · simp [handlerMsg] at h'

end LoginBot

namespace LoginBot

/-- C6: on every exit path of `login` after the driver has been created —
normal return, fatal failure, uncaught exception or interruption (every
signal except fuel exhaustion, which means the run is still inside the
loop) — the trace releases the session exactly once: `quit` occurs exactly
once and is the final event before `login` returns or re-raises. -/
theorem c6_quit_on_every_exit (env : Nat → Option Exc) (fuel : Nat)
    (lines : List (List Char))
    (hmem : Event.createDriver ∈ (login env fuel lines).1)
    (hsig : (login env fuel lines).2 ≠ .fuelOut) :
    (login env fuel lines).1.count .quit = 1 ∧
    ∃ t, (login env fuel lines).1 = t ++ [.quit] := by
  rcases hload : load_credentials lines with e | ⟨u, p⟩
  · simp [login, hload] at hmem
  · rcases h0 : env 0 with _ | e
    · rcases hbs : (loginBody u p env fuel).2.2 with _ | e | _
      · have htr : (login env fuel lines).1 =
            .createDriver :: ((loginBody u p env fuel).1 ++ [.quit]) := by
          simp only [login, hload, h0]
          rw [hbs]
        have hq : Event.quit ∉ (loginBody u p env fuel).1 :=
          quit_not_in_body u p env fuel
        constructor
        · rw [htr]
          have h0q : ((loginBody u p env fuel).1).count Event.quit = 0 :=
            List.count_eq_zero.mpr hq
          simp [List.count_cons, List.count_append, h0q]
        · exact ⟨.createDriver :: (loginBody u p env fuel).1, by
            rw [htr]; simp⟩
      · have htr : (login env fuel lines).1 =
            .createDriver :: ((loginBody u p env fuel).1 ++ [.quit]) := by
          simp only [login, hload, h0]
          rw [hbs]
        have hq : Event.quit ∉ (loginBody u p env fuel).1 :=
          quit_not_in_body u p env fuel
        constructor
        · rw [htr]
          have h0q : ((loginBody u p env fuel).1).count Event.quit = 0 :=
            List.count_eq_zero.mpr hq
          simp [List.count_cons, List.count_append, h0q]
        · exact ⟨.createDriver :: (loginBody u p env fuel).1, by
            rw [htr]; simp⟩
      · exfalso
        apply hsig
        simp only [login, hload, h0]
        rw [hbs]
    · simp [login, hload, h0] at hmem

/-- C6 witness: a run whose first navigation raises shows the single
trailing `quit`. -/
theorem c6_witness :
    Event.createDriver ∈ (login (envFailAt 1 .timeoutError) 0 sampleLines).1 ∧
    (login (envFailAt 1 .timeoutError) 0 sampleLines).2 ≠ .fuelOut ∧
    (login (envFailAt 1 .timeoutError) 0 sampleLines).1.count .quit = 1 ∧
    ∃ t, (login (envFailAt 1 .timeoutError) 0 sampleLines).1 =
      t ++ [.quit] := by
  have h := c6_quit_on_every_exit (envFailAt 1 .timeoutError) 0 sampleLines
    (by decide) (by decide)
  exact ⟨by decide, by decide, h.1, h.2⟩

/-- C10: a `KeyboardInterrupt` or `WebDriverException` raised during the
login steps or the initial fixed navigation sequence (fallible effects 1
to 19, i.e. before the keepalive loop whose effects start at index 20) is
not caught: `login` re-raises it, and the session is still released by the
surrounding cleanup (`quit` is the final event, exactly once). -/
theorem c10_preloop_exception_propagates (env : Nat → Option Exc)
    (fuel : Nat) (lines : List (List Char)) (u p : List Char) (e : Exc)
    (n : Nat) (hload : load_credentials lines = .ok (u, p))
    (hn1 : 1 ≤ n) (hn2 : n < 20)
    (hpre : ∀ i, i < n → env i = none)
    (hexc : env n = some e)
    (he : e = .keyboardInterrupt ∨ e = .webDriverError) :
    (login env fuel lines).2 = .exc e ∧
    (login env fuel lines).1.count .quit = 1 ∧
    ∃ t, (login env fuel lines).1 = t ++ [.quit] := by
  have h0 : env 0 = none := hpre 0 (by omega)
  have hsig : (runSeq env (preSteps u p) 1).2.2 = .exc e := by
    refine runSeq_raise env (preSteps u p) 1 (n - 1) e ?_ ?_ ?_
    · intro i hi
      exact hpre (1 + i) (by omega)
    · have hi : 1 + (n - 1) = n := by omega
      rw [hi]; exact hexc
    · rw [effCount_preSteps]
      omega
  have hbody : (loginBody u p env fuel).2.2 = .exc e ∧
      (loginBody u p env fuel).1 = (runSeq env (preSteps u p) 1).1 := by
    simp only [loginBody]
    rw [hsig]
    exact ⟨rfl, rfl⟩
  have htr : (login env fuel lines).1 =
      .createDriver :: ((loginBody u p env fuel).1 ++ [.quit]) ∧
      (login env fuel lines).2 = .exc e := by
    simp only [login, hload, h0]
    rw [hbody.1]
    exact ⟨rfl, rfl⟩
  refine ⟨htr.2, ?_, ?_⟩
  · rw [htr.1]
    have h0q : ((loginBody u p env fuel).1).count Event.quit = 0 :=
      List.count_eq_zero.mpr (quit_not_in_body u p env fuel)
    simp [List.count_cons, List.count_append, h0q]
  · exact ⟨.createDriver :: (loginBody u p env fuel).1, by
      rw [htr.1]; simp⟩

/-- C10 witness: a `WebDriverException` at the recovery-module navigation
(fallible effect 5) propagates out of `login`, with `quit` still last. -/
theorem c10_witness :
    (login (envFailAt 5 .webDriverError) 0 sampleLines).2 =
      .exc .webDriverError ∧
    (login (envFailAt 5 .webDriverError) 0 sampleLines).1.count .quit = 1 ∧
    ∃ t, (login (envFailAt 5 .webDriverError) 0 sampleLines).1 =
      t ++ [.quit] :=
  c10_preloop_exception_propagates (envFailAt 5 .webDriverError) 0
    sampleLines "alice".data "secret".data .webDriverError 5 (by decide)
    (by decide) (by decide) (by decide) (by decide) (Or.inr rfl)

end LoginBot

namespace LoginBot

/-- C7: if a `KeyboardInterrupt` or `WebDriverException` is raised during
the keepalive loop (its fallible effects have indices from 20 on, with 6
per iteration), the loop exits cleanly after printing the handler log
message, no exception surfaces to the caller of `login` (the signal is
`ok`), the trace ends right after that message with the session release
(no restart or retry), and `quit` occurs exactly once. -/
theorem c7_loop_exception_handled (env : Nat → Option Exc) (fuel : Nat)
    (lines : List (List Char)) (u p : List Char) (e : Exc) (n : Nat)
    (hload : load_credentials lines = .ok (u, p))
    (hn : 20 ≤ n) (hfuel : n < 20 + fuel * 6)
    (hpre : ∀ i, i < n → env i = none)
    (hexc : env n = some e)
    (he : e = .keyboardInterrupt ∨ e = .webDriverError) :
    (login env fuel lines).2 = .ok ∧
    (login env fuel lines).1.count .quit = 1 ∧
    ∃ t, (login env fuel lines).1 =
      t ++ [.printMsg (handlerMsg e), .quit] := by
  have h0 : env 0 = none := hpre 0 (by omega)
  have hpresig : runSeq env (preSteps u p) 1 =
      ((preSteps u p).map stepEv, 20, .ok) := by
    have h := runSeq_all_none env (preSteps u p) 1
      (fun j hj => hpre (1 + j) (by rw [effCount_preSteps] at hj; omega))
    rw [effCount_preSteps] at h
    exact h
  have hloop : (runLoop env navLoopSteps fuel 20).2.2 = .exc e := by
    refine runLoop_raise env navLoopSteps fuel 20 (n - 20) e ?_ ?_ ?_
    · intro i hi
      exact hpre (20 + i) (by omega)
    · have hi : 20 + (n - 20) = n := by omega
      rw [hi]; exact hexc
    · rw [effCount_navLoopSteps]
      omega
  have hguard : loopGuarded env fuel 20 =
      ((runLoop env navLoopSteps fuel 20).1 ++ [.printMsg (handlerMsg e)],
        (runLoop env navLoopSteps fuel 20).2.1, .ok) := by
    rcases he with he | he <;> subst he <;>
      · simp only [loopGuarded]
        rw [hloop]
  have hbody : loginBody u p env fuel =
      ((preSteps u p).map stepEv ++
        ((runLoop env navLoopSteps fuel 20).1 ++
          [.printMsg (handlerMsg e)]),
        (runLoop env navLoopSteps fuel 20).2.1, .ok) := by
    simp only [loginBody]
    rw [hpresig]
    simp only []
    rw [hguard]
  have htr : login env fuel lines =
      (.createDriver :: (((preSteps u p).map stepEv ++
        ((runLoop env navLoopSteps fuel 20).1 ++
          [.printMsg (handlerMsg e)])) ++ [.quit]), .ok) := by
    simp only [login, hload, h0]
    rw [hbody]
  have hq1 : Event.quit ∉ (preSteps u p).map stepEv := by
    simp [preSteps, loginFormSteps, postLoginSteps, stepEv]
  have hq2 : Event.quit ∉ (runLoop env navLoopSteps fuel 20).1 := by
    intro hmem
    have := runLoop_mem env navLoopSteps fuel 20 _ hmem
    simp [navLoopSteps, stepEv] at this
  refine ⟨by rw [htr], ?_, ?_⟩
  · rw [htr]
    have c1 : ((preSteps u p).map stepEv).count Event.quit = 0 :=
      List.count_eq_zero.mpr hq1
    have c2 : ((runLoop env navLoopSteps fuel 20).1).count Event.quit = 0 :=
      List.count_eq_zero.mpr hq2
    simp [List.count_cons, List.count_append, c1, c2, handlerMsg]
  · refine ⟨.createDriver :: ((preSteps u p).map stepEv ++
      (runLoop env navLoopSteps fuel 20).1), ?_⟩
    rw [htr]
    simp

/-- C7 witness: a `KeyboardInterrupt` during the first 10-minute sleep of
the loop (fallible effect 20) is handled: `login` returns normally and
the trace ends with the log message and the release. -/
theorem c7_witness :
    (login (envFailAt 20 .keyboardInterrupt) 1 sampleLines).2 = .ok ∧
    (login (envFailAt 20 .keyboardInterrupt) 1 sampleLines).1.count
      .quit = 1 ∧
    ∃ t, (login (envFailAt 20 .keyboardInterrupt) 1 sampleLines).1 =
      t ++ [.printMsg (handlerMsg .keyboardInterrupt), .quit] :=
  c7_loop_exception_handled (envFailAt 20 .keyboardInterrupt) 1 sampleLines
    "alice".data "secret".data .keyboardInterrupt 20 (by decide) (by decide)
    (by decide) (by decide) (by decide) (Or.inl rfl)

end LoginBot

namespace LoginBot

theorem effCount_loginFormSteps (u p : List Char) :
    effCount (loginFormSteps u p) = 10 := rfl

theorem loginBody_trace (u p : List Char) (env : Nat → Option Exc)
    (fuel : Nat) :
    (loginBody u p env fuel).1 = (runSeq env (preSteps u p) 1).1 ∨
    (loginBody u p env fuel).1 =
      (runSeq env (preSteps u p) 1).1 ++
        (loopGuarded env fuel (runSeq env (preSteps u p) 1).2.1).1 := by
  simp only [loginBody]
  rcases hsig : (runSeq env (preSteps u p) 1).2.2 with _ | e | _
  · exact Or.inr rfl
  · exact Or.inl rfl
  · exact Or.inl rfl

theorem login_trace (env : Nat → Option Exc) (fuel : Nat)
    (lines : List (List Char)) (u p : List Char)
    (hload : load_credentials lines = .ok (u, p)) (h0 : env 0 = none) :
    (login env fuel lines).1 = .createDriver :: (loginBody u p env fuel).1 ∨
    (login env fuel lines).1 =
      .createDriver :: ((loginBody u p env fuel).1 ++ [.quit]) := by
  simp only [login, hload, h0]
  rcases hsig : (loginBody u p env fuel).2.2 with _ | e | _
  · exact Or.inr rfl
  · exact Or.inr rfl
  · exact Or.inl rfl

/-- C4: in every run with valid credentials whose login phase succeeds
(the driver creation and the ten login-form effects raise nothing), the
trace starts with exactly one navigation to the login URL, the three
bounded waits, the clear-and-fill of exactly the two designated fields
(username then password), exactly one click of the submit control, and
only after that single click the wait for the URL to differ from the
login URL; over the whole run the login navigation, the click, the two
field fills and the URL-change wait each happen exactly once, no other
field is ever filled and nothing else is ever clicked. -/
theorem c4_login_procedure (env : Nat → Option Exc) (fuel : Nat)
    (lines : List (List Char)) (u p : List Char)
    (hload : load_credentials lines = .ok (u, p))
    (henv : ∀ i, i < 11 → env i = none) :
    (∃ rest, (login env fuel lines).1 = loginPhasePrefix u p ++ rest) ∧
    (login env fuel lines).1.count (.navigate .loginPage) = 1 ∧
    (login env fuel lines).1.count (.click .loginButton) = 1 ∧
    (login env fuel lines).1.count (.sendKeys .usernameField u) = 1 ∧
    (login env fuel lines).1.count (.sendKeys .passwordField p) = 1 ∧
    (login env fuel lines).1.count (.waitUrlChanged .loginPage) = 1 ∧
    (∀ f v, Event.sendKeys f v ∈ (login env fuel lines).1 →
      (f = .usernameField ∧ v = u) ∨ (f = .passwordField ∧ v = p)) ∧
    (∀ b, Event.click b ∈ (login env fuel lines).1 → b = .loginButton) := by
  have h0 : env 0 = none := henv 0 (by omega)
  have hform : runSeq env (loginFormSteps u p) 1 =
      ((loginFormSteps u p).map stepEv, 11, .ok) := by
    have h := runSeq_all_none env (loginFormSteps u p) 1
      (fun j hj => henv (1 + j)
        (by rw [effCount_loginFormSteps] at hj; omega))
    rw [effCount_loginFormSteps] at h
    exact h
  have hpre1 : (runSeq env (preSteps u p) 1).1 =
      (loginFormSteps u p).map stepEv ++ (runSeq env postLoginSteps 11).1 := by
    have h2 := runSeq_append_ok env (loginFormSteps u p) postLoginSteps 1
      (by rw [hform])
    rw [hform] at h2
    have h3 : runSeq env (preSteps u p) 1 =
        ((loginFormSteps u p).map stepEv ++ (runSeq env postLoginSteps 11).1,
          (runSeq env postLoginSteps 11).2) := h2
    rw [h3]
  have hdecomp : ∃ X, (login env fuel lines).1 = loginPhasePrefix u p ++ X ∧
      ∀ a ∈ X, a ∈ postLoginSteps.map stepEv ∨
        a ∈ navLoopSteps.map stepEv ∨
        a = .printMsg (handlerMsg .keyboardInterrupt) ∨
        a = .printMsg (handlerMsg .webDriverError) ∨ a = .quit := by
    have hphase : loginPhasePrefix u p =
        .createDriver :: (loginFormSteps u p).map stepEv := rfl
    have hYmem : ∀ a ∈ (loopGuarded env fuel
        (runSeq env (preSteps u p) 1).2.1).1,
        a ∈ navLoopSteps.map stepEv ∨
          a = .printMsg (handlerMsg .keyboardInterrupt) ∨
          a = .printMsg (handlerMsg .webDriverError) := by
      intro a ha
      exact loopGuarded_mem env fuel _ a ha
    have hpost : ∀ a ∈ (runSeq env postLoginSteps 11).1,
        a ∈ postLoginSteps.map stepEv := by
      intro a ha
      exact runSeq_mem env _ 11 a ha
    rcases loginBody_trace u p env fuel with hb | hb <;>
      rcases login_trace env fuel lines u p hload h0 with hl | hl
    · refine ⟨(runSeq env postLoginSteps 11).1, ?_, ?_⟩
      · rw [hl, hb, hpre1, hphase]
        simp
      · intro a ha
        exact Or.inl (hpost a ha)
    · refine ⟨(runSeq env postLoginSteps 11).1 ++ [.quit], ?_, ?_⟩
      · rw [hl, hb, hpre1, hphase]
        simp
      · intro a ha
        rcases List.mem_append.mp ha with h' | h'
        · exact Or.inl (hpost a h')
        · simp at h'
          exact Or.inr (Or.inr (Or.inr (Or.inr h')))
    · refine ⟨(runSeq env postLoginSteps 11).1 ++
        (loopGuarded env fuel (runSeq env (preSteps u p) 1).2.1).1, ?_, ?_⟩
      · rw [hl, hb, hpre1, hphase]
        simp
      · intro a ha
        rcases List.mem_append.mp ha with h' | h'
        · exact Or.inl (hpost a h')
        · rcases hYmem a h' with h'' | h'' | h''
          · exact Or.inr (Or.inl h'')
          · exact Or.inr (Or.inr (Or.inl h''))
          · exact Or.inr (Or.inr (Or.inr (Or.inl h'')))
    · refine ⟨(runSeq env postLoginSteps 11).1 ++
        ((loopGuarded env fuel (runSeq env (preSteps u p) 1).2.1).1 ++
          [.quit]), ?_, ?_⟩
      · rw [hl, hb, hpre1, hphase]
        simp
      · intro a ha
        rcases List.mem_append.mp ha with h' | h'
        · exact Or.inl (hpost a h')
        · rcases List.mem_append.mp h' with h'' | h''
          · rcases hYmem a h'' with h3 | h3 | h3
            · exact Or.inr (Or.inl h3)
            · exact Or.inr (Or.inr (Or.inl h3))
            · exact Or.inr (Or.inr (Or.inr (Or.inl h3)))
          · simp at h''
            exact Or.inr (Or.inr (Or.inr (Or.inr h'')))
  obtain ⟨X, hX, hXmem⟩ := hdecomp
  have hcnt0 : ∀ ev : Event, ev ∉ postLoginSteps.map stepEv →
      ev ∉ navLoopSteps.map stepEv →
      ev ≠ .printMsg (handlerMsg .keyboardInterrupt) →
      ev ≠ .printMsg (handlerMsg .webDriverError) → ev ≠ .quit →
      X.count ev = 0 := by
    intro ev h1 h2 h3 h4 h5
    refine List.count_eq_zero.mpr (fun hm => ?_)
    rcases hXmem _ hm with h | h | h | h | h
    exacts [h1 h, h2 h, h3 h, h4 h, h5 h]
  refine ⟨⟨X, hX⟩, ?_, ?_, ?_, ?_, ?_, ?_, ?_⟩
  · rw [hX, List.count_append, hcnt0 _ (by simp [postLoginSteps, stepEv])
      (by simp [navLoopSteps, stepEv]) (by simp [handlerMsg])
      (by simp [handlerMsg]) (by simp)]
    simp [loginPhasePrefix, List.count_cons]
  · rw [hX, List.count_append, hcnt0 _ (by simp [postLoginSteps, stepEv])
      (by simp [navLoopSteps, stepEv]) (by simp [handlerMsg])
      (by simp [handlerMsg]) (by simp)]
    simp [loginPhasePrefix, List.count_cons]
  · rw [hX, List.count_append, hcnt0 _ (by simp [postLoginSteps, stepEv])
      (by simp [navLoopSteps, stepEv]) (by simp [handlerMsg])
      (by simp [handlerMsg]) (by simp)]
    simp [loginPhasePrefix, List.count_cons]
  · rw [hX, List.count_append, hcnt0 _ (by simp [postLoginSteps, stepEv])
      (by simp [navLoopSteps, stepEv]) (by simp [handlerMsg])
      (by simp [handlerMsg]) (by simp)]
    simp [loginPhasePrefix, List.count_cons]
  · rw [hX, List.count_append, hcnt0 _ (by simp [postLoginSteps, stepEv])
      (by simp [navLoopSteps, stepEv]) (by simp [handlerMsg])
      (by simp [handlerMsg]) (by simp)]
    simp [loginPhasePrefix, List.count_cons]
  · intro f v hm
    rw [hX] at hm
    rcases List.mem_append.mp hm with h' | h'
    · simp [loginPhasePrefix] at h'
      tauto
    · rcases hXmem _ h' with h | h | h | h | h
      · simp [postLoginSteps, stepEv] at h
      · simp [navLoopSteps, stepEv] at h
      · simp [handlerMsg] at h
      · simp [handlerMsg] at h
      · simp at h
  · intro b hm
    rw [hX] at hm
    rcases List.mem_append.mp hm with h' | h'
    · simp [loginPhasePrefix] at h'
      exact h'
    · rcases hXmem _ h' with h | h | h | h | h
      · simp [postLoginSteps, stepEv] at h
      · simp [navLoopSteps, stepEv] at h
      · simp [handlerMsg] at h
      · simp [handlerMsg] at h
      · simp at h

/-- C4 witness: on the sample credentials and a benign environment the
run starts with the exact login-phase prefix and filled and clicked
exactly once. -/
theorem c4_witness :
    (∃ rest, (login envNone 0 sampleLines).1 =
      loginPhasePrefix "alice".data "secret".data ++ rest) ∧
    (login envNone 0 sampleLines).1.count (.click .loginButton) = 1 ∧
    (login envNone 0 sampleLines).1.count
      (.sendKeys .usernameField "alice".data) = 1 := by
  have h := c4_login_procedure envNone 0 sampleLines "alice".data
    "secret".data (by decide) (fun i _ => rfl)
  exact ⟨h.1, h.2.2.1, h.2.2.2.1⟩

end LoginBot

namespace LoginBot

theorem obsTrace_flatten (fuel : Nat) :
    obsTrace (List.replicate fuel (navLoopSteps.map stepEv)).flatten =
      (List.replicate fuel keepaliveIterObs).flatten := by
  induction fuel with
  | zero => rfl
  | succ f ih =>
    have h1 : obsTrace (navLoopSteps.map stepEv) = keepaliveIterObs := rfl
    simp only [List.replicate_succ, List.flatten_cons, obsTrace,
      List.filter_append] at *
    rw [ih, h1]

/-- C5 counterexample: with a benign environment and zero loop
iterations, the post-login navigation observables of a real run are not
the sequence the claim states: after the settle delay the code navigates
back to the course home before the loop would start. -/
theorem c5_counterexample :
    (obsTrace (login envNone 0 sampleLines).1).drop 2 ≠
      specClaimedKeepalive 0 := by decide

/-- C5 (amended): after a successful login in a run where nothing raises,
the procedure visits course home, recovery section and assignment page,
each confirmed by an exact URL wait, sleeps the fixed settle delay,
navigates back to the course home (confirmed by exact URL match), and
then alternates forever: sleep ten minutes, visit the module page
(confirmed), sleep ten minutes, return to course home (confirmed) — the
run never terminates on its own (the signal is fuel exhaustion for every
fuel bound). -/
theorem c5_keepalive_amended (env : Nat → Option Exc) (fuel : Nat)
    (lines : List (List Char)) (u p : List Char)
    (henv : ∀ i, env i = none)
    (hload : load_credentials lines = .ok (u, p)) :
    (obsTrace (login env fuel lines).1).drop 2 = amendedKeepalive fuel ∧
    (login env fuel lines).2 = .fuelOut := by
  have h0 : env 0 = none := henv 0
  have hpresig : runSeq env (preSteps u p) 1 =
      ((preSteps u p).map stepEv, 20, .ok) := by
    have h := runSeq_all_none env (preSteps u p) 1 (fun j _ => henv (1 + j))
    rw [effCount_preSteps] at h
    exact h
  have hloop := runLoop_all_none env navLoopSteps henv fuel 20
  have hguard : loopGuarded env fuel 20 =
      ((List.replicate fuel (navLoopSteps.map stepEv)).flatten,
        20 + fuel * effCount navLoopSteps, .fuelOut) := by
    simp only [loopGuarded]
    rw [hloop]
  have hbody : loginBody u p env fuel =
      ((preSteps u p).map stepEv ++
        (List.replicate fuel (navLoopSteps.map stepEv)).flatten,
        20 + fuel * effCount navLoopSteps, .fuelOut) := by
    simp only [loginBody]
    rw [hpresig]
    simp only []
    rw [hguard]
  have htr : login env fuel lines =
      (.createDriver :: ((preSteps u p).map stepEv ++
        (List.replicate fuel (navLoopSteps.map stepEv)).flatten),
        .fuelOut) := by
    simp only [login, hload, h0]
    rw [hbody]
  refine ⟨?_, by rw [htr]⟩
  rw [htr]
  have h1 : obsTrace ((preSteps u p).map stepEv) =
      [Event.navigate .loginPage, .waitUrlChanged .loginPage,
       .navigate .courseHome, .waitUrlIs .courseHome,
       .navigate .recoveryModule, .waitUrlIs .recoveryModule,
       .navigate .assignmentPage, .waitUrlIs .assignmentPage,
       .sleep 10, .navigate .courseHome, .waitUrlIs .courseHome] := rfl
  have hsplit : obsTrace (Event.createDriver ::
      ((preSteps u p).map stepEv ++
        (List.replicate fuel (navLoopSteps.map stepEv)).flatten)) =
      obsTrace ((preSteps u p).map stepEv) ++
        obsTrace (List.replicate fuel (navLoopSteps.map stepEv)).flatten := by
    simp [obsTrace, List.filter_append, isObsEvent]
  rw [hsplit, h1, obsTrace_flatten]
  simp [amendedKeepalive]

/-- C5 witness: one loop iteration of a benign concrete run matches the
amended keepalive sequence. -/
theorem c5_witness :
    (obsTrace (login envNone 1 sampleLines).1).drop 2 =
      amendedKeepalive 1 ∧
    (login envNone 1 sampleLines).2 = .fuelOut :=
  c5_keepalive_amended envNone 1 sampleLines "alice".data "secret".data
    (fun i => rfl) (by decide)

end LoginBot

namespace AutoRefresh

theorem effCount_refreshIterSteps (mins : ℚ) :
    effCount (refreshIterSteps mins) = 2 := rfl

theorem refresh_all_none (env : Nat → Option Exc) (fuel : Nat)
    (url : String) (mins : ℚ) (henv : ∀ i, env i = none) :
    actualizar_pagina env fuel url mins =
      (.openPage url ::
        (List.replicate fuel
          [REvent.sleepSeconds (mins * 60), .refresh, .statusLine]).flatten,
        .fuelOut) := by
  have hloop := runLoop_all_none env (refreshIterSteps mins) henv fuel 2
  have hmap : (refreshIterSteps mins).map stepEv =
      [REvent.sleepSeconds (mins * 60), .refresh, .statusLine] := rfl
  rw [hmap] at hloop
  simp only [actualizar_pagina, henv 0, henv 1]
  rw [hloop]

/-- C8: the auto-refresh procedure opens its URL exactly once and then
forever repeats sleep (the configured minutes times 60 seconds; with the
default of 10 minutes, exactly 600 seconds), reload, status print — in
that order, so the first reload happens only after one full interval —
and any exception raised by a loop step (in particular a reload failure)
is not caught: it propagates as the run signal. -/
theorem c8_auto_refresh (env : Nat → Option Exc) (fuel : Nat)
    (url : String) (mins : ℚ) :
    ((∀ i, env i = none) →
      actualizar_pagina env fuel url mins =
        (.openPage url ::
          (List.replicate fuel
            [REvent.sleepSeconds (mins * 60), .refresh,
              .statusLine]).flatten, .fuelOut) ∧
      actualizar_pagina env fuel url 10 =
        (.openPage url ::
          (List.replicate fuel
            [REvent.sleepSeconds 600, .refresh, .statusLine]).flatten,
          .fuelOut)) ∧
    (∀ n e, 2 ≤ n → n < 2 + fuel * 2 → (∀ i, i < n → env i = none) →
      env n = some e →
      (actualizar_pagina env fuel url mins).2 = .exc e) := by
  constructor
  · intro henv
    refine ⟨refresh_all_none env fuel url mins henv, ?_⟩
    have h := refresh_all_none env fuel url 10 henv
    have h600 : (10 : ℚ) * 60 = 600 := by norm_num
    rw [h600] at h
    exact h
  · intro n e hn2 hnlt hpre hexc
    have h0 : env 0 = none := hpre 0 (by omega)
    have h1 : env 1 = none := hpre 1 (by omega)
    have hsig : (runLoop env (refreshIterSteps mins) fuel 2).2.2 = .exc e := by
      refine runLoop_raise env (refreshIterSteps mins) fuel 2 (n - 2) e ?_ ?_ ?_
      · intro i hi
        exact hpre (2 + i) (by omega)
      · have hi : 2 + (n - 2) = n := by omega
        rw [hi]; exact hexc
      · rw [effCount_refreshIterSteps]
        omega
    simp only [actualizar_pagina, h0, h1]
    rw [hsig]

/-- C8 witness: one iteration of the default run, and a reload failure at
the first refresh (fallible effect 3) propagating. -/
theorem c8_witness :
    actualizar_pagina envNone 1 REFRESH_URL 10 =
      ([.openPage REFRESH_URL, .sleepSeconds 600, .refresh, .statusLine],
        .fuelOut) ∧
    (actualizar_pagina (envFailAt 3 .webDriverError) 1 REFRESH_URL 10).2 =
      .exc .webDriverError := by
  have h := c8_auto_refresh envNone 1 REFRESH_URL 10
  have h2 := c8_auto_refresh (envFailAt 3 .webDriverError) 1 REFRESH_URL 10
  refine ⟨?_, h2.2 3 .webDriverError (by decide) (by decide) (by decide)
    (by decide)⟩
  have h3 := (h.1 (fun i => rfl)).2
  rw [h3]
  rfl

end AutoRefresh
